import Mathlib

/-!
# Verification of the hsmcpp hierarchical state machine engine

Shallow embedding of `include/hsmcpp/hsm.hpp` (class `HierarchicalStateMachine`).

Modelling conventions:
* `StateId` / `EventId` are `Int` (the engine is parametric over two enumerations;
  `PendingEventInfo.type` defaults to `static_cast<HsmEventEnum>(-1)`, hence `Int`).
* Event arguments (`VariantList_t`) are opaque to the engine; each `Variant` is
  modelled as a `Nat` payload.
* Client callbacks are pure values: `onExiting` takes no arguments, so a pure
  callback is a constant `Bool`; `onEntering` and transition guards are functions
  of the argument list; `onStateChanged` and transition actions return nothing,
  so only their presence is recorded, and their invocations are observed through
  an explicit trace (`CbCall`) emitted by the engine.  Every trace entry also
  records the value of `mCurrentState` at the instant the callback is invoked.
* `std::multimap` iteration order (sorted by key, insertion order among equal
  keys) is reproduced by `mmEmplace`; `std::map::operator[]` by `mapInsert`.
* The parent-bubbling loop of `findTransitionTarget` is a `do/while` in C++; it
  is embedded with an explicit fuel.  `substates.length + 1` steps are enough to
  exhaust any acyclic parent chain (on a cyclic chain with no matching edge the
  C++ loop does not terminate; the fuelled model returns `none`).
-/

namespace Hsmcpp

abbrev StateId := Int
abbrev EventId := Int
abbrev Variant := Nat
abbrev VariantList := List Variant

/-- `enum class HsmEventStatus` from hsm.hpp. -/
inductive HsmEventStatus where
  | PENDING
  | DONE_OK
  | DONE_FAILED
deriving DecidableEq, Repr

/-- `struct StateCallbacks`: the three optional callbacks attached to a state.
`onStateChanged` returns nothing, so only its presence is kept; `onExiting`
takes no arguments, so a pure callback is its constant result. -/
structure StateCallbacks where
  onStateChanged : Bool := false
  onEntering : Option (VariantList → Bool) := none
  onExiting : Option Bool := none

/-- `struct TransitionInfo`: destination plus optional action (`onTransition`,
presence only) and optional guard (`checkCondition`). -/
structure TransitionInfo where
  destinationState : StateId
  onTransition : Bool := false
  checkCondition : Option (VariantList → Bool) := none

/-- `struct PendingEventInfo`.  `isSync` models the presence of the completion
latch (`cvLock`/`syncProcessed`/`transitionStatus` created by `initLock`).
`type` defaults to `static_cast<HsmEventEnum>(-1)`. -/
structure PendingEventInfo where
  entryPointTransition : Bool := false
  type : EventId := -1
  args : VariantList := []
  isSync : Bool := false
deriving DecidableEq, Repr

/-- Replace-or-append insertion of a unique-key association list: the model of
`std::map::operator[] =`. -/
def mapInsert {α : Type} : List (Int × α) → Int → α → List (Int × α)
  | [], k, v => [(k, v)]
  | (k', v') :: rest, k, v =>
      if k' = k then (k, v) :: rest else (k', v') :: mapInsert rest k v

/-- First-match lookup: the model of `std::map::find`. -/
def mapLookup {α : Type} (m : List (Int × α)) (k : Int) : Option α :=
  (m.find? (fun p => p.1 == k)).map (·.2)

/-- `std::multimap::emplace`: insert at the upper bound of the equal-key range,
i.e. after every entry whose key is `≤ k`.  Iterating the resulting list gives
the multimap's iteration order (sorted by key, insertion order among ties). -/
def mmEmplace : List (StateId × StateId) → StateId → StateId → List (StateId × StateId)
  | [], k, v => [(k, v)]
  | (k', v') :: rest, k, v =>
      if k' ≤ k then (k', v') :: mmEmplace rest k v else (k, v) :: (k', v') :: rest

/-- The registries of the state machine (the `m...` member containers of
`HierarchicalStateMachine` that describe topology).
`transitionsByEvent` keeps all entries in insertion order; since the engine only
ever consults it through `equal_range` on an exact key, the sequence of entries
with a given key is the same as in the C++ `std::multimap`. -/
structure HsmTopology where
  transitionsByEvent : List ((StateId × EventId) × TransitionInfo) := []
  registeredStates : List (StateId × StateCallbacks) := []
  substates : List (StateId × StateId) := []
  substateEntryPoint : List (StateId × StateId) := []

/-- `registerState(state, onStateChanged, onEntering, onExiting)`: callbacks are
stored only when at least one of them is non-null. -/
def registerState (t : HsmTopology) (state : StateId) (cb : StateCallbacks) : HsmTopology :=
  if cb.onStateChanged || cb.onEntering.isSome || cb.onExiting.isSome then
    { t with registeredStates := mapInsert t.registeredStates state cb }
  else
    t

/-- `registerSubstate(parent, substate, isEntryPoint)` with the safe-structure
checks disabled (the compiled default): only `parent != substate` is checked. -/
def registerSubstate (t : HsmTopology) (parent substate : StateId) (isEntryPoint : Bool) :
    HsmTopology × Bool :=
  if parent ≠ substate then
    let t1 := if isEntryPoint then
                { t with substateEntryPoint := mapInsert t.substateEntryPoint parent substate }
              else t
    ({ t1 with substates := mmEmplace t1.substates parent substate }, true)
  else
    (t, false)

/-- `registerTransition(from, to, onEvent, transitionCallback, conditionCallback)`:
unconditional `mTransitionsByEvent.emplace`. -/
def registerTransition (t : HsmTopology) (fromState toState : StateId) (onEvent : EventId)
    (onTransition : Bool) (checkCondition : Option (VariantList → Bool)) : HsmTopology :=
  { t with transitionsByEvent :=
      t.transitionsByEvent ++ [((fromState, onEvent),
        { destinationState := toState, onTransition := onTransition,
          checkCondition := checkCondition })] }

/-- `mRegisteredStates.find(state)`. -/
def lookupState (t : HsmTopology) (state : StateId) : Option StateCallbacks :=
  mapLookup t.registeredStates state

/-- `getParentState`: `std::find_if` over `mSubstates` for the first pair whose
child is `child`. -/
def getParentState (t : HsmTopology) (child : StateId) : Option StateId :=
  (t.substates.find? (fun p => p.2 == child)).map (·.1)

/-- `getEntryPoint`: lookup in `mSubstateEntryPoint`. -/
def getEntryPoint (t : HsmTopology) (state : StateId) : Option StateId :=
  mapLookup t.substateEntryPoint state

/-- `mTransitionsByEvent.equal_range(make_pair(fromState, event))`, as the
ordered list of matching transition entries. -/
def edgesFor (t : HsmTopology) (fromState : StateId) (event : EventId) : List TransitionInfo :=
  (t.transitionsByEvent.filter (fun kv => kv.1.1 == fromState && kv.1.2 == event)).map (·.2)

/-- Whether an edge is taken: no guard, or the guard accepts the arguments
(the body of the `for` loop in `findTransitionTarget`). -/
def edgeEnabled (ti : TransitionInfo) (args : VariantList) : Bool :=
  match ti.checkCondition with
  | none => true
  | some g => g args

/-- One observed callback invocation.  The `cur` component records the value of
`mCurrentState` at the instant the callback runs. -/
inductive CbCall where
  | exiting (state cur : StateId)
  | action (cur : StateId) (args : VariantList)
  | entering (state cur : StateId) (args : VariantList)
  | changed (state cur : StateId) (args : VariantList)
deriving DecidableEq, Repr

/-- `onStateExiting(state)`: returns `true` unless the state has a registered
`onExiting` callback that refuses.  The extra `cur` argument is instrumentation:
it is stamped into the emitted trace entry as the current state observed by the
callback. -/
def onStateExiting (t : HsmTopology) (cur state : StateId) : Bool × List CbCall :=
  match lookupState t state with
  | some cb =>
      match cb.onExiting with
      | some res => (res, [CbCall.exiting state cur])
      | none => (true, [])
  | none => (true, [])

/-- `onStateEntering(state, args)`: returns `true` unless the state has a
registered `onEntering` callback that refuses.  `cur` is trace instrumentation. -/
def onStateEntering (t : HsmTopology) (cur state : StateId) (args : VariantList) :
    Bool × List CbCall :=
  match lookupState t state with
  | some cb =>
      match cb.onEntering with
      | some f => (f args, [CbCall.entering state cur args])
      | none => (true, [])
  | none => (true, [])

/-- `onStateChanged(state, args)`: invokes the callback when registered.
`cur` is trace instrumentation. -/
def onStateChanged (t : HsmTopology) (cur state : StateId) (args : VariantList) : List CbCall :=
  match lookupState t state with
  | some cb => if cb.onStateChanged then [CbCall.changed state cur args] else []
  | none => []

/-- The `do { … } while (continueSearch)` loop of
`findTransitionTarget(fromState, event, args, out)`, with explicit fuel.
At each state: if the equal range for `(curState, event)` is empty, move to the
parent (when one exists) and continue; otherwise return the first edge with no
guard or with an accepting guard (`none` when every guard refuses). -/
def findTransitionTargetLoop (t : HsmTopology) (event : EventId) (args : VariantList) :
    Nat → StateId → Option TransitionInfo
  | 0, _ => none
  | fuel + 1, curState =>
      let range := edgesFor t curState event
      if range.isEmpty then
        match getParentState t curState with
        | some parent => findTransitionTargetLoop t event args fuel parent
        | none => none
      else
        range.find? (fun e => edgeEnabled e args)

/-- `findTransitionTarget(fromState, event, args, out)`.  The fuel
`substates.length + 1` exhausts every acyclic parent chain. -/
def findTransitionTarget (t : HsmTopology) (fromState : StateId) (event : EventId)
    (args : VariantList) : Option TransitionInfo :=
  findTransitionTargetLoop t event args (t.substates.length + 1) fromState

/-- The chain `s, parentOf s, parentOf (parentOf s), …` visited by the bubbling
loop (truncated by the fuel). -/
def ancestorChain (t : HsmTopology) : Nat → StateId → List StateId
  | 0, _ => []
  | fuel + 1, s =>
      s :: (match getParentState t s with
            | some p => ancestorChain t fuel p
            | none => [])

/-- The resolution phase of `doTransition`: entry-point events resolve through
`getEntryPoint(mCurrentState)` (no action, no guard); normal events through
`findTransitionTarget`. -/
def resolveTransition (t : HsmTopology) (cur : StateId) (ev : PendingEventInfo) :
    Option TransitionInfo :=
  if ev.entryPointTransition then
    (getEntryPoint t cur).map (fun ep =>
      { destinationState := ep, onTransition := false, checkCondition := none })
  else
    findTransitionTarget t cur ev.type ev.args

/-- Result of one `doTransition` call: final status, the value of
`mCurrentState` afterwards, the trace of callback invocations, and the
entry-point drilldown event pushed to the queue front, if any. -/
structure TransitionResult where
  status : HsmEventStatus
  newState : StateId
  trace : List CbCall
  enqueuedFront : Option PendingEventInfo
deriving DecidableEq, Repr

/-- `doTransition(event)`.  Mirrors hsm.hpp lines 741-824: resolve; if the
destination differs from `mCurrentState`, run `onStateExiting` (abort on
refusal), the action, `onStateEntering` (on refusal re-enter the origin with an
empty argument list and fail), then advance `mCurrentState`, run
`onStateChanged`, and enqueue a drilldown event to the front when the new state
has an entry point (status `PENDING`); a self-transition runs only the action
(`DONE_OK`) and fails when there is none.  The drilldown event shares the
event's arguments and completion latch; its `type` keeps the default `-1`. -/
def doTransition (t : HsmTopology) (cur : StateId) (ev : PendingEventInfo) : TransitionResult :=
  match resolveTransition t cur ev with
  | none => ⟨HsmEventStatus.DONE_FAILED, cur, [], none⟩
  | some ti =>
      if cur ≠ ti.destinationState then
        let ex := onStateExiting t cur cur
        if ex.1 then
          let actTr := if ti.onTransition then [CbCall.action cur ev.args] else []
          let en := onStateEntering t cur ti.destinationState ev.args
          if en.1 then
            let chTr := onStateChanged t ti.destinationState ti.destinationState ev.args
            match getEntryPoint t ti.destinationState with
            | some _ =>
                ⟨HsmEventStatus.PENDING, ti.destinationState, ex.2 ++ actTr ++ en.2 ++ chTr,
                  some { entryPointTransition := true, args := ev.args, isSync := ev.isSync }⟩
            | none =>
                ⟨HsmEventStatus.DONE_OK, ti.destinationState, ex.2 ++ actTr ++ en.2 ++ chTr, none⟩
          else
            ⟨HsmEventStatus.DONE_FAILED, cur,
              ex.2 ++ actTr ++ en.2 ++ (onStateEntering t cur cur []).2 ++ onStateChanged t cur cur [],
              none⟩
        else
          ⟨HsmEventStatus.DONE_FAILED, cur, ex.2, none⟩
      else
        if ti.onTransition then
          ⟨HsmEventStatus.DONE_OK, cur, [CbCall.action cur ev.args], none⟩
        else
          ⟨HsmEventStatus.DONE_FAILED, cur, [], none⟩

/-- The events whose completion latch is signalled `DONE_FAILED` by
`clearPendingEvents`: the loop calls `releaseLock()` on every queued event that
is not an entry-point transition, and `releaseLock` signals only sync events. -/
def releasedByClear : List PendingEventInfo → List PendingEventInfo
  | [] => []
  | ev :: rest =>
      if !ev.entryPointTransition && ev.isSync then ev :: releasedByClear rest
      else releasedByClear rest

/-- `clearPendingEvents()`: release the latch of every non-entry-point event,
then `mPendingEvents.clear()` — the queue is emptied entirely.  Returns the
queue afterwards and the list of events whose latch was signalled `DONE_FAILED`. -/
def clearPendingEvents (q : List PendingEventInfo) : List PendingEventInfo × List PendingEventInfo :=
  ([], releasedByClear q)

/-- The runtime cursor of the engine: `mCurrentState`, `mPendingEvents`,
whether `mDispatcher` is non-null, and `mStopDispatching`. -/
structure EngineState where
  currentState : StateId
  pendingEvents : List PendingEventInfo
  dispatcherActive : Bool
  stopDispatching : Bool
deriving DecidableEq, Repr

/-- `release()`: set `mStopDispatching`, unregister the handler and drop the
dispatcher reference. -/
def release (e : EngineState) : EngineState :=
  { e with stopDispatching := true, dispatcherActive := false }

/-- Outcome of the posting path of `transitionEx`. -/
inductive PostOutcome where
  /-- the event was enqueued and `emitEvent` was delivered to the dispatcher -/
  | posted
  /-- `mDispatcher->emitEvent()` was reached with a null `mDispatcher`
  (after `release()` / before initialization): undefined behavior -/
  | nullDeref
deriving DecidableEq, Repr

/-- The posting path of `transitionEx(event, clearQueue, sync, timeoutMs, args…)`,
up to and including the `mDispatcher->emitEvent()` call: build the pending event
(`initLock` when `sync`), optionally `clearPendingEvents`, `push_back`, then
`emitEvent`.  The subsequent condition-variable wait of sync callers happens on
the posting thread and is outside this state model. -/
def transitionExPost (e : EngineState) (event : EventId) (clearQueue sync : Bool)
    (_timeoutMs : Int) (args : VariantList) : PostOutcome × EngineState :=
  let ev : PendingEventInfo :=
    { entryPointTransition := false, type := event, args := args, isSync := sync }
  let q0 := if clearQueue then (clearPendingEvents e.pendingEvents).1 else e.pendingEvents
  let e1 := { e with pendingEvents := q0 ++ [ev] }
  if e1.dispatcherActive then (PostOutcome.posted, e1) else (PostOutcome.nullDeref, e1)

/-- `dispatchEvents()`: if `mStopDispatching` is set, do nothing; otherwise pop
the head event, run `doTransition` on it (pushing any drilldown event to the
queue front) and signal its latch.  Returns the new engine state and the trace
of callbacks invoked during the turn. -/
def dispatchEvents (t : HsmTopology) (e : EngineState) : EngineState × List CbCall :=
  if e.stopDispatching then (e, [])
  else
    match e.pendingEvents with
    | [] => (e, [])
    | ev :: rest =>
        let r := doTransition t e.currentState ev
        let q1 := match r.enqueuedFront with
                  | some dd => dd :: rest
                  | none => rest
        ({ e with currentState := r.newState, pendingEvents := q1 }, r.trace)

/-! ## Concrete fixtures used to instantiate the theorems -/

/-- A normal event of id 5 with no arguments and no latch. -/
def ev5 : PendingEventInfo := { type := 5 }

/-- Parent 1 with entry-point child 2, and an edge `1 --5--> 3`. -/
def tBubble : HsmTopology :=
  registerTransition (registerSubstate {} 1 2 true).1 1 3 5 false none

/-- Parent 1 with entry-point child 2; edge `2 --5--> 3` whose guard always
refuses; edge `1 --5--> 4` with no guard. -/
def tGuardStop : HsmTopology :=
  registerTransition
    (registerTransition (registerSubstate {} 1 2 true).1 2 3 5 false (some (fun _ => false)))
    1 4 5 false none

/-- Callbacks of a source state that always allows exit and entry. -/
def cbSrc : StateCallbacks :=
  { onStateChanged := true, onEntering := some (fun _ => true), onExiting := some true }

/-- Callbacks of a destination state that allows entry. -/
def cbDst : StateCallbacks :=
  { onStateChanged := true, onEntering := some (fun _ => true) }

/-- Callbacks of a destination state that refuses entry. -/
def cbRefuse : StateCallbacks :=
  { onStateChanged := true, onEntering := some (fun _ => false) }

/-- States 1 (full callbacks) and 2 (accepting entry), edge `1 --5--> 2` with an
action. -/
def tCb : HsmTopology :=
  registerTransition (registerState (registerState {} 1 cbSrc) 2 cbDst) 1 2 5 true none

/-- States 1 (full callbacks) and 2 (entry refused), edge `1 --5--> 2` with an
action. -/
def tRb : HsmTopology :=
  registerTransition (registerState (registerState {} 1 cbSrc) 2 cbRefuse) 1 2 5 true none

/-- Two edges for `(1, 5)` in registration order: to 2 guarded by
`args.head? == some 1`, then to 3 unguarded (spec scenario 4). -/
def tGuards : HsmTopology :=
  registerTransition
    (registerTransition {} 1 2 5 false (some (fun a => a.head? == some 1)))
    1 3 5 false none

/-- The event `5(0)`: first edge of `tGuards` refused, second taken. -/
def ev50 : PendingEventInfo := { type := 5, args := [0] }

/-- A single self-edge `1 --5--> 1` with an action. -/
def tSelf : HsmTopology := registerTransition {} 1 1 5 true none

/-- A pending entry-point drilldown continuation carrying a completion latch. -/
def ddEv : PendingEventInfo := { entryPointTransition := true, isSync := true }

/-- A pending normal synchronous event. -/
def syncEv : PendingEventInfo := { type := 5, isSync := true }

/-- A state-callback registration carrying only `onStateChanged`. -/
def cbA : StateCallbacks := { onStateChanged := true }

/-- A registration supplying no callbacks at all. -/
def cbNull : StateCallbacks := {}

/-- Register state 7 with `cbA`, then again with all-null callbacks. -/
def t9 : HsmTopology := registerState (registerState {} 7 cbA) 7 cbNull

/-- An initialized engine in state 0 with an empty queue. -/
def e0 : EngineState :=
  { currentState := 0, pendingEvents := [], dispatcherActive := true, stopDispatching := false }

/-! ## Supporting lemmas -/

/-- The bubbling loop inspects exactly the states of `ancestorChain`: the result
is the first-accepting-edge lookup at the first chain state whose edge set for
the event is non-empty. -/
theorem findTransitionTargetLoop_eq_chain (t : HsmTopology) (event : EventId)
    (args : VariantList) :
    ∀ (fuel : Nat) (s : StateId),
      findTransitionTargetLoop t event args fuel s =
        ((ancestorChain t fuel s).find? (fun st => !(edgesFor t st event).isEmpty)).bind
          (fun s2 => (edgesFor t s2 event).find? (fun e => edgeEnabled e args)) := by
  intro fuel
  induction fuel with
  | zero =>
      intro s
      simp [findTransitionTargetLoop, ancestorChain]
  | succ n ih =>
      intro s
      cases hE : (edgesFor t s event).isEmpty with
      | true =>
          cases hP : getParentState t s with
          | none => simp [findTransitionTargetLoop, ancestorChain, hE, hP]
          | some p => simp [findTransitionTargetLoop, ancestorChain, hE, hP, ih p]
      | false =>
          simp [findTransitionTargetLoop, ancestorChain, hE]

/-- `onStateExiting` emits at most the single `exiting` entry. -/
theorem onStateExiting_trace (t : HsmTopology) (cur state : StateId) :
    (onStateExiting t cur state).2 = [] ∨
    (onStateExiting t cur state).2 = [CbCall.exiting state cur] := by
  rcases h1 : lookupState t state with _ | cb
  · exact Or.inl (by simp [onStateExiting, h1])
  · rcases h2 : cb.onExiting with _ | r
    · exact Or.inl (by simp [onStateExiting, h1, h2])
    · exact Or.inr (by simp [onStateExiting, h1, h2])

/-- `onStateEntering` emits at most the single `entering` entry. -/
theorem onStateEntering_trace (t : HsmTopology) (cur state : StateId) (args : VariantList) :
    (onStateEntering t cur state args).2 = [] ∨
    (onStateEntering t cur state args).2 = [CbCall.entering state cur args] := by
  rcases h1 : lookupState t state with _ | cb
  · exact Or.inl (by simp [onStateEntering, h1])
  · rcases h2 : cb.onEntering with _ | f
    · exact Or.inl (by simp [onStateEntering, h1, h2])
    · exact Or.inr (by simp [onStateEntering, h1, h2])

/-- `onStateChanged` emits at most the single `changed` entry. -/
theorem onStateChanged_trace (t : HsmTopology) (cur state : StateId) (args : VariantList) :
    onStateChanged t cur state args = [] ∨
    onStateChanged t cur state args = [CbCall.changed state cur args] := by
  rcases h1 : lookupState t state with _ | cb
  · exact Or.inl (by simp [onStateChanged, h1])
  · rcases hc : cb.onStateChanged with _ | _
    · exact Or.inl (by simp [onStateChanged, h1, hc])
    · exact Or.inr (by simp [onStateChanged, h1, hc])

/-- `doTransition`, exit-refused branch. -/
theorem doTransition_exit_refused (t : HsmTopology) (cur : StateId) (ev : PendingEventInfo)
    (ti : TransitionInfo) (hres : resolveTransition t cur ev = some ti)
    (hne : cur ≠ ti.destinationState) (hex : (onStateExiting t cur cur).1 = false) :
    doTransition t cur ev =
      ⟨HsmEventStatus.DONE_FAILED, cur, (onStateExiting t cur cur).2, none⟩ := by
  simp [doTransition, hres, hne, hex]

/-- `doTransition`, successful-entry branch: the state advances to the
destination and the trace is exit, action, enter, changed, in that order. -/
theorem doTransition_success (t : HsmTopology) (cur : StateId) (ev : PendingEventInfo)
    (ti : TransitionInfo) (hres : resolveTransition t cur ev = some ti)
    (hne : cur ≠ ti.destinationState) (hex : (onStateExiting t cur cur).1 = true)
    (hen : (onStateEntering t cur ti.destinationState ev.args).1 = true) :
    (doTransition t cur ev).newState = ti.destinationState ∧
    (doTransition t cur ev).trace =
      (onStateExiting t cur cur).2 ++
      (if ti.onTransition then [CbCall.action cur ev.args] else []) ++
      (onStateEntering t cur ti.destinationState ev.args).2 ++
      onStateChanged t ti.destinationState ti.destinationState ev.args := by
  rcases hEP : getEntryPoint t ti.destinationState with _ | ep <;>
    simp [doTransition, hres, hne, hex, hen, hEP]

/-- `doTransition`, rollback branch: entry refused, so the origin state is
re-entered with empty arguments and the result is `DONE_FAILED`. -/
theorem doTransition_rollback (t : HsmTopology) (cur : StateId) (ev : PendingEventInfo)
    (ti : TransitionInfo) (hres : resolveTransition t cur ev = some ti)
    (hne : cur ≠ ti.destinationState) (hex : (onStateExiting t cur cur).1 = true)
    (hen : (onStateEntering t cur ti.destinationState ev.args).1 = false) :
    doTransition t cur ev =
      ⟨HsmEventStatus.DONE_FAILED, cur,
        (onStateExiting t cur cur).2 ++
        (if ti.onTransition then [CbCall.action cur ev.args] else []) ++
        (onStateEntering t cur ti.destinationState ev.args).2 ++
        (onStateEntering t cur cur []).2 ++ onStateChanged t cur cur [], none⟩ := by
  simp [doTransition, hres, hne, hex, hen]

/-! ## Claim theorems -/

/-- **C1.** For every event posted while in a state with no edge for that
event, the engine selects the edge of the nearest ancestor (walking the
`parentOf` chain upward from `currentState`) that has a matching edge for the
event: resolution equals the first-accepting-edge lookup at the first ancestor
owning a non-empty edge set for the event.  If no ancestor on the chain has a
matching edge, `doTransition` returns `DONE_FAILED` for that event. -/
theorem c1_parent_bubbling (t : HsmTopology) (cur : StateId) (ev : PendingEventInfo)
    (hN : ev.entryPointTransition = false) :
    (findTransitionTarget t cur ev.type ev.args =
      ((ancestorChain t (t.substates.length + 1) cur).find?
          (fun st => !(edgesFor t st ev.type).isEmpty)).bind
        (fun s2 => (edgesFor t s2 ev.type).find? (fun e => edgeEnabled e ev.args))) ∧
    ((ancestorChain t (t.substates.length + 1) cur).find?
          (fun st => !(edgesFor t st ev.type).isEmpty) = none →
      (doTransition t cur ev).status = HsmEventStatus.DONE_FAILED) := by
  constructor
  · exact findTransitionTargetLoop_eq_chain t ev.type ev.args _ cur
  · intro hnone
    have hfind : findTransitionTarget t cur ev.type ev.args = none := by
      rw [findTransitionTarget, findTransitionTargetLoop_eq_chain, hnone]
      rfl
    have hres : resolveTransition t cur ev = none := by
      simp [resolveTransition, hN, hfind]
    simp [doTransition, hres]

/-- Witness for C1: in `tBubble` event 5 posted in child state 2 resolves via
parent 1's edge; in the empty topology the chain has no matching edge and the
event fails. -/
theorem c1_parent_bubbling_witness :
    (findTransitionTarget tBubble 2 ev5.type ev5.args =
      ((ancestorChain tBubble (tBubble.substates.length + 1) 2).find?
          (fun st => !(edgesFor tBubble st ev5.type).isEmpty)).bind
        (fun s2 => (edgesFor tBubble s2 ev5.type).find? (fun e => edgeEnabled e ev5.args))) ∧
    (doTransition ({} : HsmTopology) 2 ev5).status = HsmEventStatus.DONE_FAILED :=
  ⟨(c1_parent_bubbling tBubble 2 ev5 rfl).1,
   (c1_parent_bubbling ({} : HsmTopology) 2 ev5 rfl).2 rfl⟩

/-- **C10.** If the first state on the bubbling chain that owns edges for the
event has only guard-refusing edges for the posted arguments, resolution stops
there: `findTransitionTarget` returns `none` and the event fails, never
continuing to further ancestors (even ones with accepting edges). -/
theorem c10_guard_refusal_stops_search (t : HsmTopology) (cur s2 : StateId)
    (ev : PendingEventInfo) (hN : ev.entryPointTransition = false)
    (hfound : (ancestorChain t (t.substates.length + 1) cur).find?
        (fun st => !(edgesFor t st ev.type).isEmpty) = some s2)
    (hrefuse : ∀ e ∈ edgesFor t s2 ev.type, edgeEnabled e ev.args = false) :
    findTransitionTarget t cur ev.type ev.args = none ∧
    (doTransition t cur ev).status = HsmEventStatus.DONE_FAILED := by
  have hfind : findTransitionTarget t cur ev.type ev.args = none := by
    rw [findTransitionTarget, findTransitionTargetLoop_eq_chain, hfound]
    show (edgesFor t s2 ev.type).find? (fun e => edgeEnabled e ev.args) = none
    rw [List.find?_eq_none]
    intro e he
    simp [hrefuse e he]
  refine ⟨hfind, ?_⟩
  have hres : resolveTransition t cur ev = none := by
    simp [resolveTransition, hN, hfind]
  simp [doTransition, hres]

/-- Witness for C10: in `tGuardStop`, state 2 owns an edge for event 5 whose
guard refuses; the parent's unguarded edge to 4 exists but is never reached,
and the event fails. -/
theorem c10_guard_refusal_stops_search_witness :
    edgesFor tGuardStop 1 5 =
      [{ destinationState := 4, onTransition := false, checkCondition := none }] ∧
    findTransitionTarget tGuardStop 2 ev5.type ev5.args = none ∧
    (doTransition tGuardStop 2 ev5).status = HsmEventStatus.DONE_FAILED := by
  refine ⟨rfl, ?_⟩
  refine c10_guard_refusal_stops_search tGuardStop 2 2 ev5 rfl rfl ?_
  intro e he
  have hE : edgesFor tGuardStop 2 ev5.type =
      [{ destinationState := 3, onTransition := false,
         checkCondition := some (fun _ => false) }] := rfl
  rw [hE] at he
  have he2 := List.mem_singleton.mp he
  subst he2
  rfl

/-- **C2.** For every non-self transition executed by `doTransition`, the
callbacks fire in the order `onExiting(source)`, the edge's action,
`onEntering(destination)`, `onStateChanged(destination)`; if `onExiting`
returns false, neither the action nor `onEntering` nor
`onStateChanged(destination)` fires; if `onEntering` returns false, the action
has already fired but `onStateChanged(destination)` never fires. -/
theorem c2_callback_order (t : HsmTopology) (cur : StateId) (ev : PendingEventInfo)
    (ti : TransitionInfo) (hres : resolveTransition t cur ev = some ti)
    (hne : cur ≠ ti.destinationState) :
    ((onStateExiting t cur cur).1 = false →
      (doTransition t cur ev).trace = (onStateExiting t cur cur).2) ∧
    ((onStateExiting t cur cur).1 = true →
      (onStateEntering t cur ti.destinationState ev.args).1 = true →
      (doTransition t cur ev).trace =
        (onStateExiting t cur cur).2 ++
        (if ti.onTransition then [CbCall.action cur ev.args] else []) ++
        (onStateEntering t cur ti.destinationState ev.args).2 ++
        onStateChanged t ti.destinationState ti.destinationState ev.args) ∧
    ((onStateExiting t cur cur).1 = true →
      (onStateEntering t cur ti.destinationState ev.args).1 = false →
      (ti.onTransition = true → CbCall.action cur ev.args ∈ (doTransition t cur ev).trace) ∧
      (∀ c a, CbCall.changed ti.destinationState c a ∉ (doTransition t cur ev).trace)) := by
  refine ⟨?_, ?_, ?_⟩
  · intro hex
    rw [doTransition_exit_refused t cur ev ti hres hne hex]
  · intro hex hen
    exact (doTransition_success t cur ev ti hres hne hex hen).2
  · intro hex hen
    rw [doTransition_rollback t cur ev ti hres hne hex hen]
    constructor
    · intro hti
      simp [hti]
    · intro c a hmem
      rcases onStateExiting_trace t cur cur with h1 | h1 <;>
      rcases onStateEntering_trace t cur ti.destinationState ev.args with h2 | h2 <;>
      rcases onStateEntering_trace t cur cur [] with h3 | h3 <;>
      rcases onStateChanged_trace t cur cur [] with h4 | h4 <;>
      rcases hti : ti.onTransition with _ | _ <;>
      simp [h1, h2, h3, h4, hti, Ne.symm hne] at hmem

/-- Witness for C2: in `tCb`, event 5 moves 1 to 2 and the full callback order
is observed. -/
theorem c2_callback_order_witness :
    (doTransition tCb 1 ev5).trace =
      [CbCall.exiting 1 1, CbCall.action 1 [], CbCall.entering 2 1 [],
       CbCall.changed 2 2 []] := by
  have h := (c2_callback_order tCb 1 ev5
      { destinationState := 2, onTransition := true, checkCondition := none } rfl
      (by decide)).2.1 rfl rfl
  exact h.trans rfl

/-- **C3.** When the destination's `onEntering` returns false, `doTransition`
rolls back: it re-invokes `onEntering` and then `onStateChanged` of the origin
state with an empty argument list (not the event's original arguments), leaves
the current state equal to the origin, and returns `DONE_FAILED`. -/
theorem c3_enter_refusal_rollback (t : HsmTopology) (cur : StateId) (ev : PendingEventInfo)
    (ti : TransitionInfo) (hres : resolveTransition t cur ev = some ti)
    (hne : cur ≠ ti.destinationState) (hex : (onStateExiting t cur cur).1 = true)
    (hen : (onStateEntering t cur ti.destinationState ev.args).1 = false) :
    (doTransition t cur ev).status = HsmEventStatus.DONE_FAILED ∧
    (doTransition t cur ev).newState = cur ∧
    (doTransition t cur ev).trace =
      (onStateExiting t cur cur).2 ++
      (if ti.onTransition then [CbCall.action cur ev.args] else []) ++
      (onStateEntering t cur ti.destinationState ev.args).2 ++
      (onStateEntering t cur cur []).2 ++ onStateChanged t cur cur [] := by
  rw [doTransition_rollback t cur ev ti hres hne hex hen]
  exact ⟨rfl, rfl, rfl⟩

/-- Witness for C3: in `tRb` state 2 refuses entry; state 1 is re-entered with
empty arguments, the state does not change and the event fails. -/
theorem c3_enter_refusal_rollback_witness :
    (doTransition tRb 1 ev5).status = HsmEventStatus.DONE_FAILED ∧
    (doTransition tRb 1 ev5).newState = 1 ∧
    (doTransition tRb 1 ev5).trace =
      [CbCall.exiting 1 1, CbCall.action 1 [], CbCall.entering 2 1 [],
       CbCall.entering 1 1 [], CbCall.changed 1 1 []] := by
  obtain ⟨h1, h2, h3⟩ := c3_enter_refusal_rollback tRb 1 ev5
    { destinationState := 2, onTransition := true, checkCondition := none } rfl
    (by decide) rfl rfl
  exact ⟨h1, h2, h3.trans rfl⟩

/-- **C8.** A resolved transition whose target equals the current state runs
only the edge's action with the event's arguments and returns `DONE_OK`
(no exit/enter/state-changed callbacks, no state change, no drilldown); with no
action it returns `DONE_FAILED`. -/
theorem c8_self_transition (t : HsmTopology) (cur : StateId) (ev : PendingEventInfo)
    (ti : TransitionInfo) (hres : resolveTransition t cur ev = some ti)
    (heq : ti.destinationState = cur) :
    (ti.onTransition = true →
      doTransition t cur ev =
        ⟨HsmEventStatus.DONE_OK, cur, [CbCall.action cur ev.args], none⟩) ∧
    (ti.onTransition = false →
      doTransition t cur ev = ⟨HsmEventStatus.DONE_FAILED, cur, [], none⟩) := by
  constructor <;> intro hti <;> simp [doTransition, hres, heq, hti]

/-- Witness for C8: the self-edge of `tSelf` runs only its action. -/
theorem c8_self_transition_witness :
    doTransition tSelf 1 ev5 =
      ⟨HsmEventStatus.DONE_OK, 1, [CbCall.action 1 []], none⟩ := by
  have h := (c8_self_transition tSelf 1 ev5
      { destinationState := 1, onTransition := true, checkCondition := none } rfl rfl).1 rfl
  exact h.trans rfl

/-- **C5 counterexample.** In `tCb` the destination state 2's `onEntering` runs
while the engine's current state is still 1 (the source): the trace entry is
`entering 2 1`, with `1 ≠ 2` — refuting the claim that `currentState` has
already advanced to the destination when `onEntering` runs (the assignment
`mCurrentState = destination` happens only after `onStateEntering` returns). -/
theorem c5_counterexample_entering_sees_source :
    (doTransition tCb 1 ev5).trace =
      [CbCall.exiting 1 1, CbCall.action 1 [], CbCall.entering 2 1 [],
       CbCall.changed 2 2 []] ∧
    (1 : Int) ≠ 2 := by
  decide

/-- **C5 amended.** During every transition, `currentState` has not yet
advanced (still equals the source) when the source's `onExiting`, the edge's
action, and the destination's `onEntering` run; it has advanced (equals the
new state, which is the state being reported) when `onStateChanged` runs. -/
theorem c5_amended_current_state_visibility (t : HsmTopology) (cur : StateId)
    (ev : PendingEventInfo) :
    (∀ s c, CbCall.exiting s c ∈ (doTransition t cur ev).trace → c = cur) ∧
    (∀ c a, CbCall.action c a ∈ (doTransition t cur ev).trace → c = cur) ∧
    (∀ s c a, CbCall.entering s c a ∈ (doTransition t cur ev).trace → c = cur) ∧
    (∀ s c a, CbCall.changed s c a ∈ (doTransition t cur ev).trace →
      c = s ∧ c = (doTransition t cur ev).newState) := by
  rcases hres : resolveTransition t cur ev with _ | ti
  · simp [doTransition, hres]
  · by_cases hne : cur = ti.destinationState
    · subst hne
      rcases hti : ti.onTransition with _ | _ <;>
        simp [doTransition, hres, hti]
    · rcases hex : (onStateExiting t cur cur).1 with _ | _
      · rw [doTransition_exit_refused t cur ev ti hres hne hex]
        rcases onStateExiting_trace t cur cur with h1 | h1 <;> simp [h1]
      · rcases hen : (onStateEntering t cur ti.destinationState ev.args).1 with _ | _
        · rw [doTransition_rollback t cur ev ti hres hne hex hen]
          rcases onStateExiting_trace t cur cur with h1 | h1 <;>
          rcases onStateEntering_trace t cur ti.destinationState ev.args with h2 | h2 <;>
          rcases onStateEntering_trace t cur cur [] with h3 | h3 <;>
          rcases onStateChanged_trace t cur cur [] with h4 | h4 <;>
          rcases hti : ti.onTransition with _ | _ <;>
          simp [h1, h2, h3, h4, hti] <;>
          aesop
        · obtain ⟨hns, htr⟩ := doTransition_success t cur ev ti hres hne hex hen
          rw [htr, hns]
          rcases onStateExiting_trace t cur cur with h1 | h1 <;>
          rcases onStateEntering_trace t cur ti.destinationState ev.args with h2 | h2 <;>
          rcases onStateChanged_trace t ti.destinationState ti.destinationState ev.args
            with h4 | h4 <;>
          rcases hti : ti.onTransition with _ | _ <;>
          simp [h1, h2, h4, hti] <;>
          aesop

/-- Witness for C5 (amended): in `tCb` the `changed` entry for state 2 records
current state 2, which is the advanced state. -/
theorem c5_amended_witness :
    (2 : Int) = 2 ∧ (2 : Int) = (doTransition tCb 1 ev5).newState :=
  (c5_amended_current_state_visibility tCb 1 ev5).2.2.2 2 2 [] (by decide)

/-- **C4 (code evaluation at the failing input).** `clearPendingEvents` empties
the queue entirely: the entry-point drilldown continuation `ddEv` is removed
from the queue — it does **not** remain queued to run to completion — and its
latch is not signalled; only the normal sync event's latch is released with
`DONE_FAILED`.  This contradicts the claim (and the code's own comment about
treating entry-point transitions as atomic): `mPendingEvents.clear()` drops
drilldown continuations too. -/
theorem c4_clear_drops_drilldown :
    clearPendingEvents [ddEv, syncEv] = ([], [syncEv]) := by
  decide

/-- **C6 counterexample.** Posting after `release()` is not a no-op: the event
is appended to the queue (the queue *is* affected) and the post then reaches
`mDispatcher->emitEvent()` with a null dispatcher — undefined behavior, not a
clean `false` return. -/
theorem c6_counterexample_post_after_release :
    (transitionExPost (release e0) 5 false true 0 []).1 = PostOutcome.nullDeref ∧
    (transitionExPost (release e0) 5 false true 0 []).2.pendingEvents ≠ [] := by
  decide

/-- **C6 amended.** `transitionEx` has no released-state guard: posting any
transition after `release()` still clears the queue when requested, appends the
new event, and then dereferences the null dispatcher (undefined behavior); no
event is dispatched afterwards because `dispatchEvents` observes the stop flag
and leaves the engine untouched. -/
theorem c6_amended_post_after_release (t : HsmTopology) (e : EngineState) (event : EventId)
    (clearQueue sync : Bool) (timeoutMs : Int) (args : VariantList) :
    (transitionExPost (release e) event clearQueue sync timeoutMs args).1 =
      PostOutcome.nullDeref ∧
    (transitionExPost (release e) event clearQueue sync timeoutMs args).2.pendingEvents =
      (if clearQueue then [] else e.pendingEvents) ++
        [{ entryPointTransition := false, type := event, args := args, isSync := sync }] ∧
    dispatchEvents t (release e) = (release e, []) := by
  refine ⟨?_, ?_, ?_⟩ <;>
    cases clearQueue <;>
    simp [transitionExPost, release, dispatchEvents, clearPendingEvents]

/-- Every hit of `List.find?` is the first element satisfying the predicate. -/
theorem find?_first {α : Type} (p : α → Bool) :
    ∀ (l : List α) (x : α), l.find? p = some x →
      p x = true ∧ ∃ pre post, l = pre ++ x :: post ∧ ∀ e ∈ pre, p e = false := by
  intro l
  induction l with
  | nil => intro x h; simp at h
  | cons a rest ih =>
      intro x h
      rcases ha : p a with _ | _
      · rw [List.find?_cons_of_neg _ (by simp [ha])] at h
        obtain ⟨hp, pre, post, heq, hpre⟩ := ih x h
        refine ⟨hp, a :: pre, post, by rw [heq, List.cons_append], ?_⟩
        intro e he
        rcases List.mem_cons.mp he with h1 | h1
        · subst h1; exact ha
        · exact hpre e h1
      · rw [List.find?_cons_of_pos _ (by simp [ha])] at h
        obtain rfl := Option.some.inj h
        exact ⟨ha, [], rest, rfl, by simp⟩

/-- When the selected edge has no action, `doTransition` never emits an
`action` entry — in particular, guard-refused edges never execute their
actions. -/
theorem doTransition_no_action (t : HsmTopology) (cur : StateId) (ev : PendingEventInfo)
    (ti : TransitionInfo) (hres : resolveTransition t cur ev = some ti)
    (hti : ti.onTransition = false) :
    ∀ c a, CbCall.action c a ∉ (doTransition t cur ev).trace := by
  intro c a hmem
  by_cases hne : cur = ti.destinationState
  · subst hne
    simp [doTransition, hres, hti] at hmem
  · rcases hex : (onStateExiting t cur cur).1 with _ | _
    · rw [doTransition_exit_refused t cur ev ti hres hne hex] at hmem
      rcases onStateExiting_trace t cur cur with h1 | h1 <;> simp [h1] at hmem
    · rcases hen : (onStateEntering t cur ti.destinationState ev.args).1 with _ | _
      · rw [doTransition_rollback t cur ev ti hres hne hex hen] at hmem
        rcases onStateExiting_trace t cur cur with h1 | h1 <;>
        rcases onStateEntering_trace t cur ti.destinationState ev.args with h2 | h2 <;>
        rcases onStateEntering_trace t cur cur [] with h3 | h3 <;>
        rcases onStateChanged_trace t cur cur [] with h4 | h4 <;>
        simp [h1, h2, h3, h4, hti] at hmem
      · rw [(doTransition_success t cur ev ti hres hne hex hen).2] at hmem
        rcases onStateExiting_trace t cur cur with h1 | h1 <;>
        rcases onStateEntering_trace t cur ti.destinationState ev.args with h2 | h2 <;>
        rcases onStateChanged_trace t ti.destinationState ti.destinationState ev.args
          with h4 | h4 <;>
        simp [h1, h2, h4, hti] at hmem

/-- **C7.** Among multiple edges registered for the same `(fromState, event)`
key, resolution selects the first edge in registration (insertion) order whose
guard accepts the event's arguments or which has no guard; registration appends
to the edge list; guard-refused edges are skipped and their actions never
execute. -/
theorem c7_guard_priority (t : HsmTopology) (s : StateId) (event : EventId)
    (args : VariantList) :
    ((edgesFor t s event).isEmpty = false →
      findTransitionTarget t s event args =
        (edgesFor t s event).find? (fun e => edgeEnabled e args)) ∧
    (∀ ti, (edgesFor t s event).find? (fun e => edgeEnabled e args) = some ti →
      edgeEnabled ti args = true ∧
      ∃ pre post, edgesFor t s event = pre ++ ti :: post ∧
        ∀ e ∈ pre, edgeEnabled e args = false) ∧
    (∀ f toSt e act g,
      edgesFor (registerTransition t f toSt e act g) s event =
        edgesFor t s event ++
          (if f = s ∧ e = event then
            [{ destinationState := toSt, onTransition := act, checkCondition := g }]
           else [])) ∧
    (∀ ti (ev : PendingEventInfo), findTransitionTarget t s event args = some ti →
      ti.onTransition = false → ev.entryPointTransition = false → ev.type = event →
      ev.args = args → ∀ c a, CbCall.action c a ∉ (doTransition t s ev).trace) := by
  refine ⟨?_, ?_, ?_, ?_⟩
  · intro hne
    simp [findTransitionTarget, findTransitionTargetLoop, hne]
  · intro ti h
    exact find?_first _ _ ti h
  · intro f toSt e act g
    simp only [edgesFor, registerTransition, List.filter_append, List.map_append]
    congr 1
    by_cases h1 : f = s <;> by_cases h2 : e = event <;>
      simp [h1, h2]
  · intro ti ev hfind hti hN htype hargs c a
    have hres : resolveTransition t s ev = some ti := by
      simp [resolveTransition, hN, htype, hargs, hfind]
    exact doTransition_no_action t s ev ti hres hti c a

/-- Witness for C7: in `tGuards` with arguments `[0]` the guarded first edge
refuses, the unguarded second edge (to 3) is selected, and no action runs. -/
theorem c7_guard_priority_witness :
    (edgeEnabled { destinationState := 3, onTransition := false, checkCondition := none }
        ev50.args = true ∧
      ∃ pre post, edgesFor tGuards 1 5 = pre ++
          { destinationState := 3, onTransition := false, checkCondition := none } :: post ∧
        ∀ e ∈ pre, edgeEnabled e ev50.args = false) ∧
    CbCall.action 1 [0] ∉ (doTransition tGuards 1 ev50).trace := by
  constructor
  · exact (c7_guard_priority tGuards 1 5 ev50.args).2.1
      { destinationState := 3, onTransition := false, checkCondition := none } rfl
  · exact (c7_guard_priority tGuards 1 5 ev50.args).2.2.2
      { destinationState := 3, onTransition := false, checkCondition := none }
      ev50 rfl rfl rfl rfl rfl 1 [0]

/-- Insertion into the association-list model of `std::map` makes the inserted
binding the one found for its key. -/
theorem mapLookup_mapInsert_self {α : Type} (m : List (Int × α)) (k : Int) (v : α) :
    mapLookup (mapInsert m k v) k = some v := by
  induction m with
  | nil => simp [mapInsert, mapLookup]
  | cons p rest ih =>
      obtain ⟨k1, v1⟩ := p
      by_cases h : k1 = k
      · subst h; simp [mapInsert, mapLookup]
      · simp only [mapInsert, if_neg h, mapLookup]
        rw [List.find?_cons_of_neg _ (by simp [h])]
        simp only [mapLookup] at ih
        exact ih

/-- Re-inserting the same binding is the identity. -/
theorem mapInsert_idem {α : Type} (m : List (Int × α)) (k : Int) (v : α) :
    mapInsert (mapInsert m k v) k v = mapInsert m k v := by
  induction m with
  | nil => simp [mapInsert]
  | cons p rest ih =>
      obtain ⟨k1, v1⟩ := p
      by_cases h : k1 = k
      · subst h; simp [mapInsert]
      · simp [mapInsert, h, ih]

/-- **C9 counterexample.** Register state 7 with an `onStateChanged` callback,
then re-register it supplying no callbacks at all (`cbNull`): the stored
callbacks still contain the earlier `onStateChanged` — the most recent
(all-null) call did not win, because `registerState` stores nothing when every
supplied callback is null. -/
theorem c9_counterexample_null_registration :
    (lookupState t9 7).map (fun cb => cb.onStateChanged) = some true ∧
    cbNull.onStateChanged = false ∧ cbNull.onEntering.isNone = true ∧
    cbNull.onExiting.isNone = true :=
  ⟨rfl, rfl, rfl, rfl⟩

/-- **C9 amended.** `registerState` is idempotent and the last registration
supplying at least one callback wins; a registration supplying no callbacks is
ignored and leaves the topology unchanged. -/
theorem c9_amended_last_nonnull_wins (t : HsmTopology) (s : StateId) (cb : StateCallbacks) :
    ((cb.onStateChanged || cb.onEntering.isSome || cb.onExiting.isSome) = true →
      lookupState (registerState t s cb) s = some cb ∧
      registerState (registerState t s cb) s cb = registerState t s cb) ∧
    ((cb.onStateChanged || cb.onEntering.isSome || cb.onExiting.isSome) = false →
      registerState t s cb = t) := by
  constructor
  · intro h
    constructor
    · simp [registerState, h, lookupState, mapLookup_mapInsert_self]
    · simp [registerState, h, mapInsert_idem]
  · intro h
    simp [registerState, h]

/-- Witness for C9 (amended) at state 7 with callbacks `cbA`. -/
theorem c9_amended_witness :
    lookupState (registerState {} 7 cbA) 7 = some cbA ∧
    registerState (registerState {} 7 cbA) 7 cbA = registerState {} 7 cbA :=
  (c9_amended_last_nonnull_wins {} 7 cbA).1 rfl

end Hsmcpp

